import Mathlib

/-!
Shallow embedding of the Space Invaders game core
(src/frontend/src/game.ts, class SpaceInvadersGame) and of the
leaderboard aggregation (src/frontend/src/main.ts, loadLeaderboard).

Coordinates are rationals: the invader grid starts at
startX = (800 - 11*55)/2 = 97.5, so x positions are half-integers and the
JavaScript float arithmetic used by the source (additions of integers and
of one exact half) is exact, hence faithfully modelled by ℚ.
lives is an Int because the source decrements it without a lower guard.
The render-only `stars` and `particles` fields (driven by Math.random and
never read by the game rules) are omitted from the state; `enemyShoot`'s
Math.random draw is made explicit as a `Nat` oracle argument `r`, the
selected index being `r % activeInvaders.length` (Math.floor(Math.random()
* len) is a uniform draw in [0, len)).
-/

namespace SpaceInvaders

-- Game constants (game.ts lines 7-17)
def CANVAS_WIDTH : ℚ := 800
def CANVAS_HEIGHT : ℚ := 600
def SHIP_WIDTH : ℚ := 50
def SHIP_HEIGHT : ℚ := 30
def INVADER_WIDTH : ℚ := 40
def INVADER_HEIGHT : ℚ := 30
def INVADER_ROWS : Nat := 5
def INVADER_COLS : Nat := 11
def INVADER_PADDING : ℚ := 15
def BULLET_WIDTH : ℚ := 6
def BULLET_HEIGHT : ℚ := 15

inductive InvaderType where
  | squid
  | crab
  | octopus
deriving DecidableEq, Repr

structure Invader where
  x : ℚ
  y : ℚ
  type : InvaderType
  active : Bool
  animFrame : Nat
deriving DecidableEq, Repr

structure Bullet where
  x : ℚ
  y : ℚ
  active : Bool
  isPlayer : Bool
deriving DecidableEq, Repr

structure GameState where
  shipX : ℚ
  shipY : ℚ
  invaders : List Invader
  bullets : List Bullet
  score : Nat
  lives : Int
  gameOver : Bool
  won : Bool
  invaderDirection : Int
  tick : Nat
deriving DecidableEq, Repr

-- createInitialState (game.ts lines 103-150); stars omitted (render-only)
def startX : ℚ := (CANVAS_WIDTH - (INVADER_COLS * (INVADER_WIDTH + INVADER_PADDING))) / 2

def rowType (row : Nat) : InvaderType :=
  if row = 0 then .squid else if row < 3 then .crab else .octopus

def mkInvader (row col : Nat) : Invader :=
  { x := startX + col * (INVADER_WIDTH + INVADER_PADDING)
    y := 60 + row * (INVADER_HEIGHT + INVADER_PADDING)
    type := rowType row
    active := true
    animFrame := 0 }

def createInitialState : GameState :=
  { shipX := CANVAS_WIDTH / 2 - SHIP_WIDTH / 2
    shipY := CANVAS_HEIGHT - SHIP_HEIGHT - 20
    invaders := ((List.range INVADER_ROWS).map fun row =>
      (List.range INVADER_COLS).map fun col => mkInvader row col).flatten
    bullets := []
    score := 0
    lives := 3
    gameOver := false
    won := false
    invaderDirection := 1
    tick := 0 }

-- start (game.ts lines 204-209): replaces whatever state existed before
def start (_s : GameState) : GameState := createInitialState

-- processInput (game.ts lines 171-182): left and right keys applied in
-- that order, each clamped; no effect once gameOver
def processInput (left right : Bool) (s : GameState) : GameState :=
  if s.gameOver then s
  else
    let x1 := if left then max 0 (s.shipX - 8) else s.shipX
    let x2 := if right then min (CANVAS_WIDTH - SHIP_WIDTH) (x1 + 8) else x1
    { s with shipX := x2 }

-- a single move call with an arbitrary signed direction argument:
-- negative means the left key, positive the right key, zero neither
def moveShip (d : Int) (s : GameState) : GameState :=
  processInput (decide (d < 0)) (decide (0 < d)) s

def moveSeq (ds : List Int) (s : GameState) : GameState :=
  ds.foldl (fun t d => moveShip d t) s

-- shoot (game.ts lines 184-194)
def activePlayerBullets (s : GameState) : Nat :=
  (s.bullets.filter fun b => b.isPlayer && b.active).length

def shoot (s : GameState) : GameState :=
  if 3 ≤ activePlayerBullets s then s
  else
    { s with bullets := s.bullets ++
        [{ x := s.shipX + SHIP_WIDTH / 2 - BULLET_WIDTH / 2
           y := s.shipY - BULLET_HEIGHT
           active := true
           isPlayer := true }] }

-- the client-facing shoot entry point: the keydown handler
-- (game.ts line 158) only calls shoot while the game is not over
def shootKey (s : GameState) : GameState :=
  if s.gameOver then s else shoot s

def shootN : Nat → GameState → GameState
  | 0, s => s
  | n + 1, s => shootN n (shoot s)

-- bullet movement inside update (game.ts lines 259-266)
def moveBullet (b : Bullet) : Bullet :=
  if !b.active then b
  else
    let y := b.y + (if b.isPlayer then -12 else 6)
    if y < 0 ∨ CANVAS_HEIGHT < y then { b with y := y, active := false }
    else { b with y := y }

-- checkHit (game.ts lines 348-350)
def checkHit (x1 y1 w1 h1 x2 y2 w2 h2 : ℚ) : Bool :=
  decide (x1 < x2 + w2) && decide (x2 < x1 + w1) &&
    decide (y1 < y2 + h2) && decide (y2 < y1 + h1)

def hitInvader (b : Bullet) (inv : Invader) : Bool :=
  inv.active && checkHit b.x b.y BULLET_WIDTH BULLET_HEIGHT inv.x inv.y INVADER_WIDTH INVADER_HEIGHT

def points : InvaderType → Nat
  | .squid => 30
  | .crab => 20
  | .octopus => 10

/-- One player bullet swept over the invader list in order
(the inner forEach of checkCollisions, game.ts lines 305-323).
The source sets bullet.active = false on a hit but keeps iterating and
never re-reads bullet.active inside this loop, so every overlapping
active invader is deactivated and credited.  Returns the updated
invaders, the updated bullet and the points gained. -/
def bulletVsInvaders (b : Bullet) : List Invader → List Invader × Bullet × Nat
  | [] => ([], b, 0)
  | inv :: rest =>
    let r := bulletVsInvaders b rest
    if hitInvader b inv then
      ({ inv with active := false } :: r.1, { r.2.1 with active := false },
        points inv.type + r.2.2)
    else
      (inv :: r.1, r.2.1, r.2.2)

/-- The outer forEach of phase 1 of checkCollisions (game.ts lines
302-324): each bullet that is active and player-owned at its turn is
swept over the current invader list; score accumulates. -/
def playerPhase : List Bullet → List Invader → Nat → List Bullet × List Invader × Nat
  | [], invs, sc => ([], invs, sc)
  | b :: rest, invs, sc =>
    if b.active && b.isPlayer then
      let r1 := bulletVsInvaders b invs
      let r2 := playerPhase rest r1.1 (sc + r1.2.2)
      (r1.2.1 :: r2.1, r2.2.1, r2.2.2)
    else
      let r := playerPhase rest invs sc
      (b :: r.1, r.2.1, r.2.2)

def hitsShip (shipX shipY : ℚ) (b : Bullet) : Bool :=
  b.active && !b.isPlayer &&
    checkHit b.x b.y BULLET_WIDTH BULLET_HEIGHT shipX shipY SHIP_WIDTH SHIP_HEIGHT

/-- Phase 2 of checkCollisions (game.ts lines 327-345): each active enemy
bullet overlapping the ship is deactivated and decrements lives by one;
whenever lives ≤ 0 after a decrement, gameOver is set.  The loop itself
never tests gameOver, so several hits in one tick all decrement. -/
def enemyPhase (shipX shipY : ℚ) : List Bullet → Int → Bool → List Bullet × Int × Bool
  | [], lives, over => ([], lives, over)
  | b :: rest, lives, over =>
    if hitsShip shipX shipY b then
      let lives' := lives - 1
      let over' := if lives' ≤ 0 then true else over
      let r := enemyPhase shipX shipY rest lives' over'
      ({ b with active := false } :: r.1, r.2.1, r.2.2)
    else
      let r := enemyPhase shipX shipY rest lives over
      (b :: r.1, r.2.1, r.2.2)

-- checkCollisions (game.ts lines 300-346)
def checkCollisions (s : GameState) : GameState :=
  let p := playerPhase s.bullets s.invaders s.score
  let e := enemyPhase s.shipX s.shipY p.1 s.lives s.gameOver
  { s with bullets := e.1, invaders := p.2.1, score := p.2.2,
           lives := e.2.1, gameOver := e.2.2 }

-- moveInvaders (game.ts lines 352-380)
def tentativeX (dir : Int) (inv : Invader) : ℚ :=
  inv.x + (dir : ℚ) * 15

def shouldDescend (s : GameState) : Bool :=
  s.invaders.any fun inv =>
    inv.active &&
      (decide (tentativeX s.invaderDirection inv ≤ 0) ||
        decide (CANVAS_WIDTH - INVADER_WIDTH ≤ tentativeX s.invaderDirection inv))

def moveInvaders (s : GameState) : GameState :=
  let d := shouldDescend s
  let invs := s.invaders.map fun inv =>
    if !inv.active then inv
    else if d then { inv with y := inv.y + 25 }
    else { inv with x := inv.x + (s.invaderDirection : ℚ) * 15 }
  let over := s.gameOver ||
    invs.any (fun inv => inv.active && decide (s.shipY - 30 ≤ inv.y))
  { s with invaders := invs, gameOver := over,
           invaderDirection := if d then -s.invaderDirection else s.invaderDirection }

-- invader animation (game.ts lines 277-281)
def animTick (s : GameState) : GameState :=
  { s with invaders := s.invaders.map fun inv =>
      if inv.active then { inv with animFrame := (inv.animFrame + 1) % 2 } else inv }

def invaderDefault : Invader :=
  { x := 0, y := 0, type := .octopus, active := false, animFrame := 0 }

-- enemyShoot (game.ts lines 382-393); the Math.random draw is the
-- oracle r, the chosen index being r % (number of active invaders),
-- always in range so the getD default is never consulted
def enemyShoot (r : Nat) (s : GameState) : GameState :=
  let actives := s.invaders.filter fun i => i.active
  if actives.length = 0 then s
  else
    let shooter := actives.getD (r % actives.length) invaderDefault
    { s with bullets := s.bullets ++
        [{ x := shooter.x + INVADER_WIDTH / 2 - BULLET_WIDTH / 2
           y := shooter.y + INVADER_HEIGHT
           active := true
           isPlayer := false }] }

def activeInvaderCount (s : GameState) : Nat :=
  (s.invaders.filter fun i => i.active).length

/-! The body of update (game.ts lines 236-298), one named step per
statement, in source order; the stars/particles steps are omitted
(render-only, never read by the game rules). -/

def stepTick (s : GameState) : GameState := { s with tick := s.tick + 1 }

def stepBullets (s : GameState) : GameState :=
  { s with bullets := s.bullets.map moveBullet }

def stepInvaders (s : GameState) : GameState :=
  if s.tick % 25 = 0 then moveInvaders s else s

def stepAnim (s : GameState) : GameState :=
  if s.tick % 15 = 0 then animTick s else s

def stepEnemy (r : Nat) (s : GameState) : GameState :=
  if s.tick % 50 = 0 then enemyShoot r s else s

def stepWin (s : GameState) : GameState :=
  if activeInvaderCount s = 0 then { s with gameOver := true, won := true } else s

def stepCompact (s : GameState) : GameState :=
  { s with bullets := s.bullets.filter fun b => b.active }

-- update (game.ts lines 236-298)
def update (r : Nat) (s : GameState) : GameState :=
  if s.gameOver then s
  else
    stepCompact (stepWin (stepEnemy r (stepAnim (stepInvaders
      (checkCollisions (stepBullets (stepTick s)))))))

/-! ## Leaderboard ledger and aggregation -/

structure LeaderboardEntry where
  username : String
  score : Nat
  timestamp : Nat
deriving DecidableEq, Repr

/-- Modelled from the spec: the on-chain contract holding the leaderboard
ledger is not part of the frontend sources; the spec describes
`submit_score` as appending a new, immutable entry to an append-only
ledger that never deduplicates or overwrites. -/
def submitScore (ledger : List LeaderboardEntry) (e : LeaderboardEntry) :
    List LeaderboardEntry :=
  ledger ++ [e]

/-- Modelled from the spec: `get_leaderboard()` returns all entries in
append order; aggregation is left to the caller. -/
def getLeaderboard (ledger : List LeaderboardEntry) : List LeaderboardEntry :=
  ledger

/-- One step of the aggregation loop of loadLeaderboard
(main.ts lines 669-684): the Map keyed by the upper-cased username either
has its running total increased or gains a fresh pair.  The Map is
modelled as an association list in insertion order (JS Map iteration
order).  Only the normalized key and the running total are kept; the
display-cased username stored alongside does not affect any total. -/
def addEntry (acc : List (String × Nat)) (e : LeaderboardEntry) :
    List (String × Nat) :=
  let k := e.username.toUpper
  if acc.any (fun p => p.1 = k) then
    acc.map fun p => if p.1 = k then (p.1, p.2 + e.score) else p
  else
    acc ++ [(k, e.score)]

/-- The aggregation of loadLeaderboard: sum all scores per username. -/
def aggregate (entries : List LeaderboardEntry) : List (String × Nat) :=
  entries.foldl addEntry []

/-- The total displayed for a normalized username key. -/
def getTotal (acc : List (String × Nat)) (k : String) : Nat :=
  match acc.find? (fun p => p.1 = k) with
  | some p => p.2
  | none => 0

/-- Sum of the scores of all of a username's ledger entries
(matching case-insensitively, as the aggregation does). -/
def sumScores : List LeaderboardEntry → String → Nat
  | [], _ => 0
  | e :: es, k => (if e.username.toUpper = k then e.score else 0) + sumScores es k

/-! ## Derived observations used to state the claims -/

/-- Tier points summed over the invaders that are active in the first
list and inactive in the second: one term, drawn from 30/20/10 by type,
per invader deactivated between the two snapshots. -/
def deactScore : List Invader → List Invader → Nat
  | i :: is, j :: js =>
    (if i.active && !j.active then points i.type else 0) + deactScore is js
  | _, _ => 0

/-- An invader evolves within a tick only by possibly losing its active
flag; position, type and animation are untouched by the collision pass. -/
def Weakens (i j : Invader) : Prop :=
  j = i ∨ j = { i with active := false }

/-- A bullet evolves within the collision pass only by possibly losing
its active flag. -/
def BWeakens (b c : Bullet) : Prop :=
  c = b ∨ c = { b with active := false }

/-- What one player bullet deactivates: the source marks an invader on
overlap without re-reading the bullet's active flag. -/
def markInvader (b : Bullet) (i : Invader) : Invader :=
  if hitInvader b i then { i with active := false } else i

/-- Number of active enemy bullets whose box overlaps the ship. -/
def enemyHits (shipX shipY : ℚ) : List Bullet → Nat
  | [] => 0
  | b :: bs => (if hitsShip shipX shipY b then 1 else 0) + enemyHits shipX shipY bs

/-- The wall condition exactly as the claim words it: some active
invader's tentative x falls strictly outside [0, CANVAS_WIDTH -
INVADER_WIDTH].  The source's trigger (shouldDescend) also fires on the
boundary values 0 and CANVAS_WIDTH - INVADER_WIDTH themselves. -/
def tentativeOutside (s : GameState) : Bool :=
  s.invaders.any fun inv =>
    inv.active &&
      (decide (tentativeX s.invaderDirection inv < 0) ||
        decide (CANVAS_WIDTH - INVADER_WIDTH < tentativeX s.invaderDirection inv))

/-! ## Concrete states used by counterexamples and witnesses -/

/-- One active player bullet whose 6x15 box overlaps two active squid
invaders at once (the invaders overlap each other; the state is built
directly to exercise the collision pass). -/
def ex1 : GameState :=
  { shipX := 375, shipY := 550
    invaders := [
      { x := 0, y := 0, type := .squid, active := true, animFrame := 0 },
      { x := 0, y := 25, type := .squid, active := true, animFrame := 0 }]
    bullets := [{ x := 0, y := 20, active := true, isPlayer := true }]
    score := 0, lives := 3, gameOver := false, won := false
    invaderDirection := 1, tick := 0 }

/-- lives = 1 and two enemy bullets that, after this tick's +6 movement,
both overlap the ship's box. -/
def ex4 : GameState :=
  { shipX := 375, shipY := 550
    invaders := [{ x := 100, y := 60, type := .squid, active := true, animFrame := 0 }]
    bullets := [
      { x := 375, y := 554, active := true, isPlayer := false },
      { x := 380, y := 556, active := true, isPlayer := false }]
    score := 0, lives := 1, gameOver := false, won := false
    invaderDirection := 1, tick := 0 }

/-- lives = 1 and exactly one enemy bullet overlapping the ship. -/
def ex4b : GameState :=
  { shipX := 375, shipY := 550
    invaders := [{ x := 100, y := 60, type := .squid, active := true, animFrame := 0 }]
    bullets := [{ x := 375, y := 560, active := true, isPlayer := false }]
    score := 0, lives := 1, gameOver := false, won := false
    invaderDirection := 1, tick := 0 }

/-- A terminal state: gameOver already set. -/
def ex5 : GameState :=
  { shipX := 200, shipY := 550
    invaders := [{ x := 100, y := 60, type := .crab, active := true, animFrame := 0 }]
    bullets := [{ x := 211, y := 300, active := true, isPlayer := true }]
    score := 120, lives := 2, gameOver := true, won := false
    invaderDirection := 1, tick := 77 }

/-- One active invader at x = 15 moving left: its tentative x is exactly 0,
inside the closed interval [0, 760], yet the source's trigger fires. -/
def ex6 : GameState :=
  { shipX := 375, shipY := 550
    invaders := [{ x := 15, y := 60, type := .crab, active := true, animFrame := 0 }]
    bullets := [], score := 0, lives := 3, gameOver := false, won := false
    invaderDirection := -1, tick := 0 }

/-- One active invader at x = 750 moving right: tentative x = 765, strictly
outside [0, 760]. -/
def ex6w : GameState :=
  { shipX := 375, shipY := 550
    invaders := [{ x := 750, y := 60, type := .octopus, active := true, animFrame := 0 }]
    bullets := [], score := 0, lives := 3, gameOver := false, won := false
    invaderDirection := 1, tick := 0 }

/-- Two active invaders at distinct positions and tick = 49, so the next
update is an enemy-fire tick. -/
def ex7 : GameState :=
  { shipX := 375, shipY := 550
    invaders := [
      { x := 100, y := 60, type := .squid, active := true, animFrame := 0 },
      { x := 200, y := 60, type := .squid, active := true, animFrame := 0 }]
    bullets := [], score := 0, lives := 3, gameOver := false, won := false
    invaderDirection := 1, tick := 49 }

/-- A bullet evolves through the player-bullet pass either unchanged or,
when it is a player bullet, by losing its active flag. -/
def BStep (b c : Bullet) : Prop :=
  c = b ∨ (b.isPlayer = true ∧ c = { b with active := false })

/-- Two invaders agreeing on the active flag (movement and animation
change only position or animation frame). -/
def ActiveEq (j j' : Invader) : Prop := j'.active = j.active

/-! ## Helper lemmas -/

lemma deactScore_self (l : List Invader) : deactScore l l = 0 := by
  induction l with
  | nil => rfl
  | cons i is ih => simp [deactScore, ih]

lemma markInvader_weakens (b : Bullet) (i : Invader) :
    Weakens i (markInvader b i) := by
  unfold markInvader Weakens
  split
  · exact Or.inr rfl
  · exact Or.inl rfl

lemma forall₂_weakens_refl (l : List Invader) : List.Forall₂ Weakens l l :=
  List.forall₂_same.mpr fun i _ => Or.inl rfl

lemma forall₂_weakens_map (b : Bullet) (l : List Invader) :
    List.Forall₂ Weakens l (l.map (markInvader b)) := by
  induction l with
  | nil => exact List.Forall₂.nil
  | cons i is ih => exact List.Forall₂.cons (markInvader_weakens b i) ih

lemma weakens_trans {i j k : Invader} (h1 : Weakens i j) (h2 : Weakens j k) :
    Weakens i k := by
  rcases h1 with rfl | rfl
  · exact h2
  · rcases h2 with rfl | rfl
    · exact Or.inr rfl
    · exact Or.inr rfl

lemma forall₂_weakens_trans {a b c : List Invader}
    (h1 : List.Forall₂ Weakens a b) (h2 : List.Forall₂ Weakens b c) :
    List.Forall₂ Weakens a c := by
  induction h1 generalizing c with
  | nil => cases h2; exact List.Forall₂.nil
  | cons hij h1 ih =>
    cases h2 with
    | cons hjk h2 => exact List.Forall₂.cons (weakens_trans hij hjk) (ih h2)

lemma weakens_active {i j : Invader} (h : Weakens i j) :
    j.active = true → i.active = true := by
  rcases h with rfl | rfl
  · exact id
  · intro hj; cases hj

lemma weakens_type {i j : Invader} (h : Weakens i j) : j.type = i.type := by
  rcases h with rfl | rfl <;> rfl

lemma deactScore_trans {a b c : List Invader}
    (h1 : List.Forall₂ Weakens a b) (h2 : List.Forall₂ Weakens b c) :
    deactScore a c = deactScore a b + deactScore b c := by
  induction h1 generalizing c with
  | nil => cases h2; rfl
  | @cons i j as bs hij h1 ih =>
    cases h2 with
    | @cons _ k _ cs hjk h2 =>
      simp only [deactScore, ih h2]
      rcases hij with rfl | rfl
      · rcases hjk with rfl | rfl <;> simp <;> omega
      · rcases hjk with rfl | rfl <;>
          cases hia : i.active <;> simp [hia] <;> omega

lemma hitInvader_active {b : Bullet} {i : Invader}
    (h : hitInvader b i = true) : i.active = true := by
  simp only [hitInvader, Bool.and_eq_true] at h
  exact h.1

lemma bulletVsInvaders_fst (b : Bullet) (l : List Invader) :
    (bulletVsInvaders b l).1 = l.map (markInvader b) := by
  induction l with
  | nil => rfl
  | cons i is ih =>
    cases h : hitInvader b i <;>
      simp [bulletVsInvaders, markInvader, h, ih]

lemma bulletVsInvaders_bullet (b : Bullet) (l : List Invader) :
    (bulletVsInvaders b l).2.1 =
      if l.any (hitInvader b) then { b with active := false } else b := by
  induction l with
  | nil => rfl
  | cons i is ih =>
    cases h : hitInvader b i
    · simp [bulletVsInvaders, h, ih]
    · by_cases h2 : is.any (hitInvader b) <;> simp [bulletVsInvaders, h, ih, h2]

lemma bulletVsInvaders_pts (b : Bullet) (l : List Invader) :
    (bulletVsInvaders b l).2.2 = deactScore l (l.map (markInvader b)) := by
  induction l with
  | nil => rfl
  | cons i is ih =>
    cases h : hitInvader b i
    · simp [bulletVsInvaders, deactScore, markInvader, h, ih]
    · simp [bulletVsInvaders, deactScore, markInvader, h, ih,
        hitInvader_active h]

lemma playerPhase_spec (bs : List Bullet) (invs : List Invader) (sc : Nat) :
    (playerPhase bs invs sc).2.2 =
      sc + deactScore invs (playerPhase bs invs sc).2.1 ∧
    List.Forall₂ Weakens invs (playerPhase bs invs sc).2.1 ∧
    List.Forall₂ BStep bs (playerPhase bs invs sc).1 := by
  induction bs generalizing invs sc with
  | nil =>
    exact ⟨by simp [playerPhase, deactScore_self], forall₂_weakens_refl invs,
      List.Forall₂.nil⟩
  | cons b rest ih =>
    cases h : (b.active && b.isPlayer)
    · simp only [playerPhase, h, Bool.false_eq_true, if_false]
      have := ih invs sc
      exact ⟨this.1, this.2.1, List.Forall₂.cons (Or.inl rfl) this.2.2⟩
    · have hw1 : List.Forall₂ Weakens invs (bulletVsInvaders b invs).1 := by
        rw [bulletVsInvaders_fst]; exact forall₂_weakens_map b invs
      have hpts : (bulletVsInvaders b invs).2.2 =
          deactScore invs (bulletVsInvaders b invs).1 := by
        rw [bulletVsInvaders_pts, bulletVsInvaders_fst]
      have := ih (bulletVsInvaders b invs).1 (sc + (bulletVsInvaders b invs).2.2)
      refine ⟨?_, ?_, ?_⟩ <;> simp only [playerPhase, h, if_true]
      · rw [this.1, deactScore_trans hw1 this.2.1, hpts]
        omega
      · exact forall₂_weakens_trans hw1 this.2.1
      · refine List.Forall₂.cons ?_ this.2.2
        rw [bulletVsInvaders_bullet]
        have hp : b.isPlayer = true := by
          simp only [Bool.and_eq_true] at h; exact h.2
        split
        · exact Or.inr ⟨hp, rfl⟩
        · exact Or.inl rfl

lemma hitsShip_bstep (sx sy : ℚ) {b c : Bullet} (h : BStep b c) :
    hitsShip sx sy c = hitsShip sx sy b := by
  rcases h with rfl | ⟨hp, rfl⟩
  · rfl
  · simp [hitsShip, hp]

lemma enemyHits_forall₂ (sx sy : ℚ) {bs cs : List Bullet}
    (h : List.Forall₂ BStep bs cs) :
    enemyHits sx sy cs = enemyHits sx sy bs := by
  induction h with
  | nil => rfl
  | cons hbc h ih => simp [enemyHits, hitsShip_bstep sx sy hbc, ih]

lemma enemyPhase_spec (sx sy : ℚ) (bs : List Bullet) (l : Int) (o : Bool) :
    (enemyPhase sx sy bs l o).2.1 = l - enemyHits sx sy bs ∧
    (enemyPhase sx sy bs l o).2.2 =
      (o || (decide (0 < enemyHits sx sy bs) &&
        decide (l - enemyHits sx sy bs ≤ 0))) := by
  induction bs generalizing l o with
  | nil => simp [enemyPhase, enemyHits]
  | cons b rest ih =>
    cases h : hitsShip sx sy b
    · have := ih l o
      simp only [enemyPhase, h, Bool.false_eq_true, if_false, enemyHits]
      simpa using this
    · have := ih (l - 1) (if l - 1 ≤ 0 then true else o)
      simp only [enemyPhase, h, if_true, enemyHits] at this ⊢
      refine ⟨by rw [this.1]; push_cast; omega, ?_⟩
      rw [this.2]
      by_cases h1 : l - 1 ≤ 0 <;>
        by_cases h2 : (0 : Nat) < enemyHits sx sy rest <;>
        by_cases h3 : l - 1 - enemyHits sx sy rest ≤ 0 <;>
        simp [h1, h2, h3] <;> push_cast <;> omega

lemma activePlayerBullets_shoot (s : GameState) :
    activePlayerBullets (shoot s) =
      if 3 ≤ activePlayerBullets s then activePlayerBullets s
      else activePlayerBullets s + 1 := by
  unfold shoot
  split
  · simp_all
  · simp_all [activePlayerBullets, List.filter_append]

lemma shoot_cap_step (s : GameState) (h : activePlayerBullets s ≤ 3) :
    activePlayerBullets (shoot s) ≤ 3 := by
  rw [activePlayerBullets_shoot]
  split <;> omega

lemma processInput_bounds (l r : Bool) (s : GameState)
    (h0 : 0 ≤ s.shipX) (h1 : s.shipX ≤ CANVAS_WIDTH - SHIP_WIDTH) :
    0 ≤ (processInput l r s).shipX ∧
      (processInput l r s).shipX ≤ CANVAS_WIDTH - SHIP_WIDTH := by
  have hW : (0 : ℚ) ≤ CANVAS_WIDTH - SHIP_WIDTH := by
    norm_num [CANVAS_WIDTH, SHIP_WIDTH]
  unfold processInput
  split
  · exact ⟨h0, h1⟩
  · cases l <;> cases r <;> simp only [Bool.false_eq_true, if_true, if_false]
    · exact ⟨h0, h1⟩
    · exact ⟨le_min hW (by linarith), min_le_left _ _⟩
    · exact ⟨le_max_left _ _, max_le hW (by linarith)⟩
    · refine ⟨le_min hW ?_, min_le_left _ _⟩
      have := le_max_left (0 : ℚ) (s.shipX - 8)
      linarith

lemma forall₂_map_self (f : Invader → Invader) (l : List Invader) :
    List.Forall₂ (fun i j => j = f i) l (l.map f) := by
  induction l with
  | nil => exact List.Forall₂.nil
  | cons i is ih => exact List.Forall₂.cons rfl ih

lemma checkCollisions_spec (s : GameState) :
    (checkCollisions s).score =
      s.score + deactScore s.invaders (checkCollisions s).invaders ∧
    List.Forall₂ Weakens s.invaders (checkCollisions s).invaders ∧
    (checkCollisions s).lives = s.lives - enemyHits s.shipX s.shipY s.bullets ∧
    (checkCollisions s).gameOver =
      (s.gameOver || (decide (0 < enemyHits s.shipX s.shipY s.bullets) &&
        decide (s.lives - enemyHits s.shipX s.shipY s.bullets ≤ 0))) ∧
    (checkCollisions s).won = s.won := by
  have hp := playerPhase_spec s.bullets s.invaders s.score
  have he := enemyPhase_spec s.shipX s.shipY
    (playerPhase s.bullets s.invaders s.score).1 s.lives s.gameOver
  have hh := enemyHits_forall₂ s.shipX s.shipY hp.2.2
  refine ⟨hp.1, hp.2.1, ?_, ?_, rfl⟩
  · show (enemyPhase s.shipX s.shipY
      (playerPhase s.bullets s.invaders s.score).1 s.lives s.gameOver).2.1 = _
    rw [he.1, hh]
  · show (enemyPhase s.shipX s.shipY
      (playerPhase s.bullets s.invaders s.score).1 s.lives s.gameOver).2.2 = _
    rw [he.2, hh]

lemma forall₂_activeEq_refl (l : List Invader) : List.Forall₂ ActiveEq l l :=
  List.forall₂_same.mpr fun _ _ => rfl

lemma forall₂_activeEq_map {f : Invader → Invader}
    (hf : ∀ i, (f i).active = i.active) (l : List Invader) :
    List.Forall₂ ActiveEq l (l.map f) := by
  induction l with
  | nil => exact List.Forall₂.nil
  | cons i is ih => exact List.Forall₂.cons (hf i) ih

lemma forall₂_activeEq_trans {a b c : List Invader}
    (h1 : List.Forall₂ ActiveEq a b) (h2 : List.Forall₂ ActiveEq b c) :
    List.Forall₂ ActiveEq a c := by
  induction h1 generalizing c with
  | nil => cases h2; exact List.Forall₂.nil
  | cons hij h1 ih =>
    cases h2 with
    | cons hjk h2 => exact List.Forall₂.cons (hjk.trans hij) (ih h2)

lemma deactScore_activeEq {b c : List Invader}
    (h : List.Forall₂ ActiveEq b c) (a : List Invader) :
    deactScore a b = deactScore a c := by
  induction h generalizing a with
  | nil => cases a <;> rfl
  | @cons j k bs cs hjk h ih =>
    cases a with
    | nil => rfl
    | cons i as =>
      show (if i.active && !j.active then points i.type else 0) + deactScore as bs =
        (if i.active && !k.active then points i.type else 0) + deactScore as cs
      rw [hjk, ih as]

lemma moveInvaders_invaders (s : GameState) :
    (moveInvaders s).invaders = s.invaders.map fun inv =>
      if !inv.active then inv
      else if shouldDescend s then { inv with y := inv.y + 25 }
      else { inv with x := inv.x + (s.invaderDirection : ℚ) * 15 } := rfl

lemma moveInvaders_activeEq (s : GameState) :
    List.Forall₂ ActiveEq s.invaders (moveInvaders s).invaders := by
  rw [moveInvaders_invaders]
  refine forall₂_activeEq_map (fun i => ?_) s.invaders
  by_cases hi : i.active = true <;> by_cases hd : shouldDescend s = true <;>
    simp [hi, hd]

lemma animTick_invaders (s : GameState) :
    (animTick s).invaders = s.invaders.map fun inv =>
      if inv.active then { inv with animFrame := (inv.animFrame + 1) % 2 }
      else inv := rfl

lemma animTick_activeEq (s : GameState) :
    List.Forall₂ ActiveEq s.invaders (animTick s).invaders := by
  rw [animTick_invaders]
  refine forall₂_activeEq_map (fun i => ?_) s.invaders
  by_cases hi : i.active = true <;> simp [hi]

lemma enemyShoot_fields (r : Nat) (s : GameState) :
    (enemyShoot r s).invaders = s.invaders ∧
    (enemyShoot r s).score = s.score ∧
    (enemyShoot r s).lives = s.lives ∧
    (enemyShoot r s).gameOver = s.gameOver ∧
    (enemyShoot r s).won = s.won ∧
    (enemyShoot r s).invaderDirection = s.invaderDirection := by
  by_cases hc : (List.filter (fun i => i.active) s.invaders).length = 0 <;>
    simp [enemyShoot, hc]

lemma stepInvaders_fields (s : GameState) :
    (stepInvaders s).score = s.score ∧
    (stepInvaders s).lives = s.lives ∧
    (stepInvaders s).won = s.won ∧
    List.Forall₂ ActiveEq s.invaders (stepInvaders s).invaders := by
  unfold stepInvaders
  split
  · exact ⟨rfl, rfl, rfl, moveInvaders_activeEq s⟩
  · exact ⟨rfl, rfl, rfl, forall₂_activeEq_refl _⟩

lemma stepAnim_fields (s : GameState) :
    (stepAnim s).score = s.score ∧
    (stepAnim s).lives = s.lives ∧
    (stepAnim s).won = s.won ∧
    (stepAnim s).gameOver = s.gameOver ∧
    (stepAnim s).invaderDirection = s.invaderDirection ∧
    List.Forall₂ ActiveEq s.invaders (stepAnim s).invaders := by
  unfold stepAnim
  split
  · exact ⟨rfl, rfl, rfl, rfl, rfl, animTick_activeEq s⟩
  · exact ⟨rfl, rfl, rfl, rfl, rfl, forall₂_activeEq_refl _⟩

lemma stepEnemy_fields (r : Nat) (s : GameState) :
    (stepEnemy r s).invaders = s.invaders ∧
    (stepEnemy r s).score = s.score ∧
    (stepEnemy r s).lives = s.lives ∧
    (stepEnemy r s).invaderDirection = s.invaderDirection := by
  unfold stepEnemy
  split
  · exact ⟨(enemyShoot_fields r s).1, (enemyShoot_fields r s).2.1,
      (enemyShoot_fields r s).2.2.1, (enemyShoot_fields r s).2.2.2.2.2⟩
  · exact ⟨rfl, rfl, rfl, rfl⟩

lemma stepWin_fields (s : GameState) :
    (stepWin s).invaders = s.invaders ∧
    (stepWin s).score = s.score ∧
    (stepWin s).lives = s.lives ∧
    (stepWin s).invaderDirection = s.invaderDirection := by
  unfold stepWin
  split <;> exact ⟨rfl, rfl, rfl, rfl⟩

lemma tail_chain (r : Nat) (t : GameState) :
    (stepCompact (stepWin (stepEnemy r (stepAnim (stepInvaders t))))).score =
      t.score ∧
    (stepCompact (stepWin (stepEnemy r (stepAnim (stepInvaders t))))).lives =
      t.lives ∧
    List.Forall₂ ActiveEq t.invaders
      (stepCompact (stepWin (stepEnemy r (stepAnim (stepInvaders t))))).invaders := by
  refine ⟨?_, ?_, ?_⟩
  · show (stepWin (stepEnemy r (stepAnim (stepInvaders t)))).score = t.score
    rw [(stepWin_fields _).2.1, (stepEnemy_fields r _).2.1,
      (stepAnim_fields _).1, (stepInvaders_fields t).1]
  · show (stepWin (stepEnemy r (stepAnim (stepInvaders t)))).lives = t.lives
    rw [(stepWin_fields _).2.2.1, (stepEnemy_fields r _).2.2.1,
      (stepAnim_fields _).2.1, (stepInvaders_fields t).2.1]
  · show List.Forall₂ ActiveEq t.invaders
      (stepWin (stepEnemy r (stepAnim (stepInvaders t)))).invaders
    rw [(stepWin_fields _).1, (stepEnemy_fields r _).1]
    exact forall₂_activeEq_trans (stepInvaders_fields t).2.2.2
      (stepAnim_fields _).2.2.2.2.2

lemma update_eq_chain (r : Nat) (s : GameState) (h : s.gameOver = false) :
    update r s = stepCompact (stepWin (stepEnemy r (stepAnim (stepInvaders
      (checkCollisions (stepBullets (stepTick s))))))) := by
  unfold update
  rw [if_neg (by simp [h] : ¬ (s.gameOver = true))]

lemma update_core_spec (r : Nat) (s : GameState) (h : s.gameOver = false) :
    (update r s).score = s.score + deactScore s.invaders (update r s).invaders ∧
    (update r s).lives =
      s.lives - enemyHits s.shipX s.shipY (s.bullets.map moveBullet) := by
  have hcc := checkCollisions_spec (stepBullets (stepTick s))
  have htc := tail_chain r (checkCollisions (stepBullets (stepTick s)))
  rw [update_eq_chain r s h]
  constructor
  · rw [htc.1, ← deactScore_activeEq htc.2.2 s.invaders]
    exact hcc.1
  · rw [htc.2.1]
    exact hcc.2.2.1

lemma getTotal_cons (p : String × Nat) (l : List (String × Nat)) (k : String) :
    getTotal (p :: l) k = if p.1 = k then p.2 else getTotal l k := by
  unfold getTotal
  rw [List.find?_cons]
  by_cases h : p.1 = k <;> simp [h]

lemma getTotal_map_add (v : Nat) (kk k : String) (acc : List (String × Nat)) :
    getTotal (acc.map fun p => if p.1 = kk then (p.1, p.2 + v) else p) k =
      getTotal acc k +
        (if k = kk ∧ (acc.any fun p => p.1 = k) = true then v else 0) := by
  induction acc with
  | nil => simp [getTotal]
  | cons p ps ih =>
    by_cases hpk : p.1 = k
    · by_cases hkk : k = kk
      · subst hkk
        simp [getTotal_cons, hpk, List.any_cons]
      · have hpkk : ¬ (p.1 = kk) := by rw [hpk]; exact hkk
        simp [getTotal_cons, hpk, hpkk, hkk]
    · have hd : decide (p.1 = k) = false := by simp [hpk]
      by_cases hpkk : p.1 = kk
      · have hkk2 : ¬ (kk = k) := fun hc => hpk (hpkk.trans hc)
        have hkk3 : ¬ (k = kk) := fun hc => hkk2 hc.symm
        simp [getTotal_cons, hpk, hpkk, hkk2, hkk3, List.any_cons, hd, ih]
      · have hor : (decide (p.1 = k) || ps.any fun q => decide (q.1 = k)) =
            (ps.any fun q => decide (q.1 = k)) := by
          rw [hd]; exact Bool.false_or _
        rw [List.map_cons,
          show (if p.1 = kk then (p.1, p.2 + v) else p) = p from if_neg hpkk,
          getTotal_cons, if_neg hpk, getTotal_cons, if_neg hpk, ih,
          List.any_cons, hor]

lemma getTotal_append_new (v : Nat) (kk k : String) (acc : List (String × Nat))
    (hnone : (acc.any fun p => p.1 = kk) = false) :
    getTotal (acc ++ [(kk, v)]) k = getTotal acc k + (if k = kk then v else 0) := by
  induction acc with
  | nil =>
    by_cases h : k = kk
    · simp [getTotal_cons, h, getTotal]
    · have h2 : ¬ (kk = k) := fun hc => h hc.symm
      simp [getTotal_cons, h, h2, getTotal]
  | cons p ps ih =>
    rw [List.any_cons, Bool.or_eq_false_iff] at hnone
    by_cases hpk : p.1 = k
    · by_cases hk : k = kk
      · exfalso
        have hx : p.1 = kk := by rw [hpk, hk]
        rw [hx] at hnone
        simpa using hnone.1
      · simp [getTotal_cons, hpk, hk]
    · simp only [List.cons_append, getTotal_cons, hpk, if_false,
        ih hnone.2, if_neg hpk]

lemma getTotal_addEntry (acc : List (String × Nat)) (e : LeaderboardEntry)
    (k : String) :
    getTotal (addEntry acc e) k =
      getTotal acc k + (if e.username.toUpper = k then e.score else 0) := by
  unfold addEntry
  by_cases hmem : (acc.any fun p => p.1 = e.username.toUpper) = true
  · rw [if_pos hmem, getTotal_map_add]
    by_cases hk : k = e.username.toUpper
    · subst hk
      rw [if_pos ⟨rfl, hmem⟩, if_pos rfl]
    · have hk2 : ¬ (e.username.toUpper = k) := fun hc => hk hc.symm
      simp [hk, hk2]
  · rw [if_neg hmem, getTotal_append_new _ _ _ _ (Bool.eq_false_iff.mpr hmem)]
    by_cases hk : k = e.username.toUpper
    · have hk2 : e.username.toUpper = k := hk.symm
      rw [if_pos hk, if_pos hk2]
    · have hk2 : ¬ (e.username.toUpper = k) := fun hc => hk hc.symm
      rw [if_neg hk, if_neg hk2]

lemma getTotal_foldl (es : List LeaderboardEntry) (acc : List (String × Nat))
    (k : String) :
    getTotal (es.foldl addEntry acc) k = getTotal acc k + sumScores es k := by
  induction es generalizing acc with
  | nil => simp [sumScores, getTotal]
  | cons e es ih =>
    rw [List.foldl_cons, ih, getTotal_addEntry]
    simp only [sumScores]
    omega

/-- C8: leaderboard scoring is cumulative: the displayed total for a
username key equals the sum of the scores of all that username's ledger
entries; two submissions for the same player both remain in the ledger in
append order (nothing deduplicated or overwritten), and submitting 100
then 50 for A aggregates to 150, not 100 or 50. -/
theorem C8_cumulative :
    (∀ (entries : List LeaderboardEntry) (k : String),
      getTotal (aggregate entries) k = sumScores entries k) ∧
    (∀ (ledger : List LeaderboardEntry) (e₁ e₂ : LeaderboardEntry),
      getLeaderboard (submitScore (submitScore ledger e₁) e₂) =
        getLeaderboard ledger ++ [e₁, e₂]) ∧
    getLeaderboard (submitScore (submitScore []
        { username := "A", score := 100, timestamp := 0 })
        { username := "A", score := 50, timestamp := 1 }) =
      [{ username := "A", score := 100, timestamp := 0 },
       { username := "A", score := 50, timestamp := 1 }] ∧
    getTotal (aggregate (submitScore (submitScore []
        { username := "A", score := 100, timestamp := 0 })
        { username := "A", score := 50, timestamp := 1 })) ("A".toUpper) = 150 := by
  have h1 : ∀ (entries : List LeaderboardEntry) (k : String),
      getTotal (aggregate entries) k = sumScores entries k := by
    intro es k
    rw [aggregate, getTotal_foldl]
    show 0 + sumScores es k = sumScores es k
    omega
  refine ⟨h1, ?_, rfl, ?_⟩
  · intro ledger e₁ e₂
    simp [getLeaderboard, submitScore]
  · rw [h1]
    simp [sumScores, submitScore]

/-- C9: `init_game` is idempotent with respect to the canonical initial
state: two consecutive calls yield the same state, and that state has 55
active invaders in a 5×11 grid, score 0, lives 3, tick 0, over false,
won false and an empty bullet list, regardless of the prior state. -/
theorem C9_init_idempotent (s₁ s₂ : GameState) :
    start s₁ = start s₂ ∧
    start (start s₁) = start s₁ ∧
    start s₁ = createInitialState ∧
    activeInvaderCount createInitialState = 55 ∧
    createInitialState.invaders.length = 55 ∧
    (createInitialState.invaders.all fun i => i.active) = true ∧
    createInitialState.invaders =
      ((List.range INVADER_ROWS).map fun row =>
        (List.range INVADER_COLS).map fun col => mkInvader row col).flatten ∧
    INVADER_ROWS = 5 ∧ INVADER_COLS = 11 ∧
    createInitialState.score = 0 ∧ createInitialState.lives = 3 ∧
    createInitialState.tick = 0 ∧ createInitialState.gameOver = false ∧
    createInitialState.won = false ∧ createInitialState.bullets = [] :=
  ⟨rfl, rfl, rfl, by decide, by decide, by decide, rfl, rfl, rfl, rfl, rfl,
    rfl, rfl, rfl, rfl⟩

/-- C5: once gameOver is set, the tick update, the movement input and the
shoot key handler all leave the state unchanged; only `start` resets it. -/
theorem C5_over_noop (r : Nat) (l rt : Bool) (s : GameState)
    (h : s.gameOver = true) :
    update r s = s ∧ processInput l rt s = s ∧ shootKey s = s := by
  refine ⟨?_, ?_, ?_⟩ <;> simp [update, processInput, shootKey, h]

theorem C5_over_noop_witness :
    ex5.gameOver = true ∧
      (update 0 ex5 = ex5 ∧ processInput true false ex5 = ex5 ∧
        shootKey ex5 = ex5) :=
  ⟨rfl, C5_over_noop 0 true false ex5 rfl⟩

/-- C3: the number of simultaneously active player bullets never exceeds
the cap 3 under any sequence of shoot calls; a shoot call at or above the
cap is a no-op; five consecutive shoot calls from the initial state with
no intervening tick leave exactly 3 active player bullets. -/
theorem C3_bullet_cap :
    (∀ (n : Nat) (s : GameState), activePlayerBullets s ≤ 3 →
      activePlayerBullets (shootN n s) ≤ 3) ∧
    (∀ s : GameState, 3 ≤ activePlayerBullets s → shoot s = s) ∧
    activePlayerBullets (shootN 5 (start createInitialState)) = 3 ∧
    (shootN 5 (start createInitialState)).bullets.length = 3 := by
  refine ⟨?_, ?_, by decide, by decide⟩
  · intro n
    induction n with
    | zero => exact fun s h => h
    | succ n ih => exact fun s h => ih (shoot s) (shoot_cap_step s h)
  · intro s h
    unfold shoot
    simp [h]

theorem C3_bullet_cap_witness :
    activePlayerBullets (start createInitialState) ≤ 3 ∧
      activePlayerBullets (shootN 5 (start createInitialState)) ≤ 3 :=
  ⟨by decide, C3_bullet_cap.1 5 (start createInitialState) (by decide)⟩

/-- C2: for every sequence of move calls with arbitrary signed direction
arguments, the ship's x stays within [0, CANVAS_WIDTH - SHIP_WIDTH]; an
input that would cross a boundary saturates there instead of erroring. -/
theorem C2_ship_clamped (ds : List Int) (s : GameState)
    (h0 : 0 ≤ s.shipX) (h1 : s.shipX ≤ CANVAS_WIDTH - SHIP_WIDTH) :
    (0 ≤ (moveSeq ds s).shipX ∧
      (moveSeq ds s).shipX ≤ CANVAS_WIDTH - SHIP_WIDTH) ∧
    (∀ d : Int, d < 0 → s.shipX = 0 → (moveShip d s).shipX = 0) ∧
    (∀ d : Int, 0 < d → s.shipX = CANVAS_WIDTH - SHIP_WIDTH →
      (moveShip d s).shipX = CANVAS_WIDTH - SHIP_WIDTH) := by
  refine ⟨?_, ?_, ?_⟩
  · induction ds generalizing s with
    | nil => exact ⟨h0, h1⟩
    | cons d ds ih =>
      have hb := processInput_bounds (decide (d < 0)) (decide (0 < d)) s h0 h1
      exact ih (moveShip d s) hb.1 hb.2
  · intro d hd hx
    have hd' : ¬ (0 < d) := by omega
    unfold moveShip processInput
    split
    · exact hx
    · simp [hd, hd', hx]
  · intro d hd hx
    have hd' : ¬ (d < 0) := by omega
    unfold moveShip processInput
    split
    · exact hx
    · simp only [hd, hd', decide_eq_true_eq, decide_eq_false_iff_not,
        not_false_eq_true, if_true, if_false]
      simp [hd, hd', hx, min_eq_left, le_add_iff_nonneg_right]

/-- C10: score never decreases under move, shoot, or a tick update; the
increase within one tick equals deactScore — by definition a sum with one
tier term (10, 20 or 30 by invader type) per invader deactivated during
that tick — and every tier value lies in {10, 20, 30}. -/
theorem C10_score_monotone :
    (∀ (l r : Bool) (s : GameState), (processInput l r s).score = s.score) ∧
    (∀ s : GameState, (shoot s).score = s.score) ∧
    (∀ (r : Nat) (s : GameState),
      (update r s).score = s.score + deactScore s.invaders (update r s).invaders) ∧
    (∀ (r : Nat) (s : GameState), s.score ≤ (update r s).score) ∧
    (∀ t : InvaderType, points t = 10 ∨ points t = 20 ∨ points t = 30) := by
  have h3 : ∀ (r : Nat) (s : GameState),
      (update r s).score = s.score + deactScore s.invaders (update r s).invaders := by
    intro r s
    cases hg : s.gameOver
    · exact (update_core_spec r s hg).1
    · have he : update r s = s := by unfold update; rw [if_pos hg]
      rw [he, deactScore_self]
      omega
  refine ⟨?_, ?_, h3, ?_, ?_⟩
  · intro l r s; unfold processInput; split <;> rfl
  · intro s; unfold shoot; split <;> rfl
  · intro r s; rw [h3 r s]; exact Nat.le_add_right _ _
  · intro t; cases t <;> simp [points]

/-- C4 counterexample: from ex4 (lives = 1, game not over, two enemy
bullets that overlap the ship after this tick's movement) a single tick
update drives lives to -1: the enemy-bullet loop decrements per hit with
no guard, so the claimed "never below 0" fails on multi-hit ticks. -/
theorem C4_counterexample :
    ex4.lives = 1 ∧ ex4.gameOver = false ∧ (update 0 ex4).lives = -1 := by
  refine ⟨rfl, rfl, ?_⟩
  norm_num [update, stepTick, stepBullets, stepInvaders, stepAnim, stepEnemy,
    stepWin, stepCompact, checkCollisions, playerPhase, bulletVsInvaders,
    enemyPhase, moveBullet, moveInvaders, animTick, enemyShoot,
    activeInvaderCount, shouldDescend, tentativeX, invaderDefault, hitInvader,
    hitsShip, checkHit, ex4, BULLET_WIDTH, BULLET_HEIGHT, INVADER_WIDTH,
    INVADER_HEIGHT, SHIP_WIDTH, SHIP_HEIGHT, CANVAS_WIDTH, CANVAS_HEIGHT,
    points]

/-- C4 amended: each tick subtracts one life per enemy bullet overlapping
the ship, so several simultaneous hits in one tick can push lives below 0;
on ticks with at most one hit a positive lives count never goes negative,
reaching 0 sets gameOver (won is left untouched by the loss path), and
once gameOver is set a tick update changes nothing, so no further decrement
ever occurs. -/
theorem C4_amended :
    (∀ s : GameState,
      (checkCollisions s).lives = s.lives - enemyHits s.shipX s.shipY s.bullets ∧
      (checkCollisions s).won = s.won) ∧
    (∀ (r : Nat) (s : GameState), s.gameOver = false →
      (update r s).lives =
        s.lives - enemyHits s.shipX s.shipY (s.bullets.map moveBullet)) ∧
    (∀ s : GameState, 0 < s.lives → enemyHits s.shipX s.shipY s.bullets ≤ 1 →
      0 ≤ (checkCollisions s).lives ∧
      ((checkCollisions s).lives = 0 → (checkCollisions s).gameOver = true)) ∧
    (∀ (r : Nat) (s : GameState), s.gameOver = true → update r s = s) := by
  refine ⟨?_, ?_, ?_, ?_⟩
  · exact fun s => ⟨(checkCollisions_spec s).2.2.1, (checkCollisions_spec s).2.2.2.2⟩
  · exact fun r s h => (update_core_spec r s h).2
  · intro s h1 h2
    have hl := (checkCollisions_spec s).2.2.1
    have hg := (checkCollisions_spec s).2.2.2.1
    constructor
    · rw [hl]; omega
    · intro h0
      rw [hl] at h0
      have h4 : 0 < enemyHits s.shipX s.shipY s.bullets := by omega
      have h5 : s.lives - (enemyHits s.shipX s.shipY s.bullets : Int) ≤ 0 := by
        omega
      rw [hg]
      simp [h4, h5]
  · intro r s h; unfold update; rw [if_pos h]

theorem C4_amended_witness :
    0 < ex4b.lives ∧ enemyHits ex4b.shipX ex4b.shipY ex4b.bullets ≤ 1 ∧
      (0 ≤ (checkCollisions ex4b).lives ∧
        ((checkCollisions ex4b).lives = 0 →
          (checkCollisions ex4b).gameOver = true)) :=
  ⟨by norm_num [ex4b],
   by norm_num [enemyHits, hitsShip, checkHit, ex4b, BULLET_WIDTH,
     BULLET_HEIGHT, SHIP_WIDTH, SHIP_HEIGHT],
   C4_amended.2.2.1 ex4b (by norm_num [ex4b])
     (by norm_num [enemyHits, hitsShip, checkHit, ex4b, BULLET_WIDTH,
       BULLET_HEIGHT, SHIP_WIDTH, SHIP_HEIGHT])⟩

/-- C1 counterexample: in ex1 a single active player bullet overlaps two
active squid invaders; one collision pass deactivates BOTH and credits
both (+30 each), because the source never re-reads bullet.active inside
the invader loop — refuting "no second invader is deactivated or
credited by that bullet". -/
theorem C1_counterexample :
    ex1.bullets.length = 1 ∧ activeInvaderCount ex1 = 2 ∧
    activeInvaderCount (checkCollisions ex1) = 0 ∧
    (checkCollisions ex1).score = 60 := by
  refine ⟨rfl, rfl, ?_, ?_⟩ <;>
  norm_num [checkCollisions, playerPhase, bulletVsInvaders, enemyPhase,
    activeInvaderCount, hitInvader, hitsShip, checkHit, ex1, BULLET_WIDTH,
    BULLET_HEIGHT, INVADER_WIDTH, INVADER_HEIGHT, SHIP_WIDTH, SHIP_HEIGHT,
    points]

/-- C1 amended: in one player-bullet sweep, EVERY active invader whose
box the bullet overlaps is deactivated and credited (the bullet's
deactivation is not re-checked inside its own sweep); the bullet ends
inactive exactly when it overlapped at least one active invader; and an
invader already inactive is never hit again, so across different bullets
no invader is credited twice. -/
theorem C1_amended (b : Bullet) (l : List Invader) :
    (bulletVsInvaders b l).1 = l.map (markInvader b) ∧
    (bulletVsInvaders b l).2.1 =
      (if l.any (hitInvader b) then { b with active := false } else b) ∧
    (bulletVsInvaders b l).2.2 = deactScore l (l.map (markInvader b)) ∧
    (∀ i : Invader, i.active = false → markInvader b i = i) :=
  ⟨bulletVsInvaders_fst b l, bulletVsInvaders_bullet b l,
   bulletVsInvaders_pts b l,
   fun i hi => by simp [markInvader, hitInvader, hi]⟩

theorem C1_amended_witness :
    invaderDefault.active = false ∧
      markInvader { x := 0, y := 0, active := true, isPlayer := true }
        invaderDefault = invaderDefault :=
  ⟨rfl, (C1_amended { x := 0, y := 0, active := true, isPlayer := true }
    []).2.2.2 invaderDefault rfl⟩

/-- C6 counterexample: in ex6 the single active invader's tentative x is
exactly 0 — inside the closed interval [0, CANVAS_WIDTH - INVADER_WIDTH],
so by the claim this is a non-wall tick — yet the grid descends (x stays
15, y becomes 85) and the shared direction flips, because the source
triggers on newX <= 0 as well. -/
theorem C6_counterexample :
    tentativeOutside ex6 = false ∧
    (moveInvaders ex6).invaderDirection = - ex6.invaderDirection ∧
    ((moveInvaders ex6).invaders.map fun i => i.x) = [15] ∧
    ((moveInvaders ex6).invaders.map fun i => i.y) = [85] := by
  refine ⟨?_, ?_, ?_, ?_⟩ <;>
  norm_num [tentativeOutside, moveInvaders, shouldDescend, tentativeX, ex6,
    INVADER_WIDTH, CANVAS_WIDTH]

/-- C6 amended: the sweep trigger is "some active invader's tentative x
is ≤ 0 or ≥ CANVAS_WIDTH - INVADER_WIDTH" (outside the OPEN interval), a
condition strictly weaker than the claim's strict "outside [0, 760]"; it
is evaluated against tentative positions of all active invaders before
any commit; on trigger ticks every active invader descends by exactly 25
with x unchanged and the single shared direction flips exactly once; on
non-trigger ticks every active invader moves horizontally by
direction·15 and the direction is unchanged; and on non-sweep ticks a
tick update never changes the direction. -/
theorem C6_amended (s : GameState) :
    (tentativeOutside s = true → shouldDescend s = true) ∧
    (moveInvaders s).invaderDirection =
      (if shouldDescend s then -s.invaderDirection else s.invaderDirection) ∧
    (shouldDescend s = true →
      List.Forall₂ (fun i j => j = if i.active then { i with y := i.y + 25 } else i)
        s.invaders (moveInvaders s).invaders) ∧
    (shouldDescend s = false →
      List.Forall₂ (fun i j =>
          j = if i.active then { i with x := i.x + (s.invaderDirection : ℚ) * 15 } else i)
        s.invaders (moveInvaders s).invaders) ∧
    (∀ r : Nat, s.gameOver = false → (s.tick + 1) % 25 ≠ 0 →
      (update r s).invaderDirection = s.invaderDirection) := by
  refine ⟨?_, rfl, ?_, ?_, ?_⟩
  · intro h
    simp only [tentativeOutside, shouldDescend, List.any_eq_true,
      Bool.and_eq_true, Bool.or_eq_true, decide_eq_true_eq] at h ⊢
    obtain ⟨inv, hm, ha, hc⟩ := h
    exact ⟨inv, hm, ha, hc.elim (fun hlt => Or.inl (le_of_lt hlt))
      (fun hlt => Or.inr (le_of_lt hlt))⟩
  · intro hd
    rw [moveInvaders_invaders]
    refine (forall₂_map_self _ s.invaders).imp ?_
    intro i j hj
    rw [hj]
    by_cases hi : i.active = true <;> simp [hi, hd]
  · intro hd
    rw [moveInvaders_invaders]
    refine (forall₂_map_self _ s.invaders).imp ?_
    intro i j hj
    rw [hj]
    by_cases hi : i.active = true <;> simp [hi, hd]
  · intro r hgo h25
    rw [update_eq_chain r s hgo]
    show (stepWin (stepEnemy r (stepAnim (stepInvaders
      (checkCollisions (stepBullets (stepTick s))))))).invaderDirection =
      s.invaderDirection
    rw [(stepWin_fields _).2.2.2, (stepEnemy_fields r _).2.2.2,
      (stepAnim_fields _).2.2.2.2.1]
    show (stepInvaders (checkCollisions (stepBullets (stepTick s)))).invaderDirection =
      s.invaderDirection
    unfold stepInvaders
    have h25' : ¬ ((checkCollisions (stepBullets (stepTick s))).tick % 25 = 0) := h25
    rw [if_neg h25']
    rfl

theorem C6_amended_witness :
    tentativeOutside ex6w = true ∧ shouldDescend ex6w = true :=
  ⟨by norm_num [tentativeOutside, tentativeX, ex6w, CANVAS_WIDTH, INVADER_WIDTH],
   (C6_amended ex6w).1
     (by norm_num [tentativeOutside, tentativeX, ex6w, CANVAS_WIDTH,
       INVADER_WIDTH])⟩

/-- C7 counterexample: two runs from the identical state ex7 with the
identical call (one tick update) but different values of the external
random draw produce different enemy bullets — the shooter selection is
not a pure function of the committed game state. -/
theorem C7_counterexample :
    (update 0 ex7).bullets ≠ (update 1 ex7).bullets ∧
      update 0 ex7 ≠ update 1 ex7 := by
  have h0 : (update 0 ex7).bullets =
      [{ x := 132, y := 90, active := true, isPlayer := false }] := by
    norm_num [update, stepTick, stepBullets, stepInvaders, stepAnim, stepEnemy,
      stepWin, stepCompact, checkCollisions, playerPhase, bulletVsInvaders,
      enemyPhase, moveBullet, moveInvaders, animTick, enemyShoot,
      activeInvaderCount, shouldDescend, tentativeX, invaderDefault,
      List.getD, hitInvader, hitsShip, checkHit, ex7, BULLET_WIDTH,
      BULLET_HEIGHT, INVADER_WIDTH, INVADER_HEIGHT, SHIP_WIDTH, SHIP_HEIGHT,
      CANVAS_WIDTH, CANVAS_HEIGHT, points]
  have h1 : (update 1 ex7).bullets =
      [{ x := 232, y := 90, active := true, isPlayer := false }] := by
    norm_num [update, stepTick, stepBullets, stepInvaders, stepAnim, stepEnemy,
      stepWin, stepCompact, checkCollisions, playerPhase, bulletVsInvaders,
      enemyPhase, moveBullet, moveInvaders, animTick, enemyShoot,
      activeInvaderCount, shouldDescend, tentativeX, invaderDefault,
      List.getD, hitInvader, hitsShip, checkHit, ex7, BULLET_WIDTH,
      BULLET_HEIGHT, INVADER_WIDTH, INVADER_HEIGHT, SHIP_WIDTH, SHIP_HEIGHT,
      CANVAS_WIDTH, CANVAS_HEIGHT, points]
  have hne : (update 0 ex7).bullets ≠ (update 1 ex7).bullets := by
    rw [h0, h1]
    intro hc
    rw [List.cons.injEq, Bullet.mk.injEq] at hc
    have := hc.1.1
    norm_num at this
  exact ⟨hne, fun heq => hne (by rw [heq])⟩

/-- C7 amended: the shooter is a pure function of the committed state and
the external random draw together: with the draw r, exactly the active
invader at index r mod (number of active invaders) fires, the new enemy
bullet spawning at its position; nothing else changes in the invaders or
score, and any two draws congruent modulo the active count produce the
identical result. -/
theorem C7_amended (r : Nat) (s : GameState) (h : activeInvaderCount s ≠ 0) :
    (enemyShoot r s).bullets = s.bullets ++
      [{ x := ((s.invaders.filter fun i => i.active).getD
            (r % activeInvaderCount s) invaderDefault).x +
            INVADER_WIDTH / 2 - BULLET_WIDTH / 2
         y := ((s.invaders.filter fun i => i.active).getD
            (r % activeInvaderCount s) invaderDefault).y + INVADER_HEIGHT
         active := true
         isPlayer := false }] ∧
    (enemyShoot r s).invaders = s.invaders ∧
    (enemyShoot r s).score = s.score ∧
    (∀ r' : Nat, r' % activeInvaderCount s = r % activeInvaderCount s →
      enemyShoot r' s = enemyShoot r s) := by
  have h' : ¬ ((s.invaders.filter fun i => i.active).length = 0) := h
  refine ⟨?_, (enemyShoot_fields r s).1, (enemyShoot_fields r s).2.1, ?_⟩
  · simp [enemyShoot, activeInvaderCount, h']
  · intro r' hr
    have hr2 : r' % (s.invaders.filter fun i => i.active).length =
        r % (s.invaders.filter fun i => i.active).length := hr
    simp [enemyShoot, h', hr2]

theorem C7_amended_witness :
    activeInvaderCount ex7 ≠ 0 ∧ (enemyShoot 0 ex7).invaders = ex7.invaders ∧
      (enemyShoot 0 ex7).score = ex7.score :=
  ⟨by decide, (C7_amended 0 ex7 (by decide)).2.1,
    (C7_amended 0 ex7 (by decide)).2.2.1⟩

theorem C2_ship_clamped_witness :
    (0 ≤ createInitialState.shipX ∧
      createInitialState.shipX ≤ CANVAS_WIDTH - SHIP_WIDTH) ∧
    (0 ≤ (moveSeq [5, -1000000, 3] createInitialState).shipX ∧
      (moveSeq [5, -1000000, 3] createInitialState).shipX ≤
        CANVAS_WIDTH - SHIP_WIDTH) :=
  ⟨⟨by norm_num [createInitialState, CANVAS_WIDTH, SHIP_WIDTH],
    by norm_num [createInitialState, CANVAS_WIDTH, SHIP_WIDTH]⟩,
    (C2_ship_clamped [5, -1000000, 3] createInitialState
      (by norm_num [createInitialState, CANVAS_WIDTH, SHIP_WIDTH])
      (by norm_num [createInitialState, CANVAS_WIDTH, SHIP_WIDTH])).1⟩

end SpaceInvaders
